import Mathlib

/-!
Verification of the `jam` HTTP request/response normalization pipeline.

This file shallowly embeds the TypeScript sources (URL resolution, header
assembly, request dispatch, response normalization, structured Set-Cookie
parsing, and error classification) as executable Lean definitions, and
proves or refutes the claims of the specification about them.

Conventions of the embedding:
* JavaScript strings are Lean `String`s; helper functions named `js...`
  model the exact ECMAScript primitive used by the source (restricted to
  ASCII where the inputs under discussion are ASCII).
* Thrown exceptions become `Except` error values; the resolved or
  rejected promise of an `async` function becomes the returned `Except`.
* Machine numbers (HTTP status codes, epoch milliseconds, Max-Age seconds)
  are `Nat`/`Int`; none of the involved quantities can overflow a JS
  double in the ranges considered.
-/

namespace Jam

/-! ## ECMAScript string primitives -/

/-- Model of `String.prototype.toLowerCase` restricted to ASCII (the header
names, attribute keys and method names it is applied to are ASCII). -/
def jsToLowerCase (s : String) : String :=
  String.mk (s.data.map fun c =>
    if c.toNat ≥ 65 ∧ c.toNat ≤ 90 then Char.ofNat (c.toNat + 32) else c)

/-- Does list `l` start with list `p`? (helper for substring search). -/
def listStarts : List Char → List Char → Bool
  | _, [] => true
  | [], _ :: _ => false
  | a :: as, b :: bs => a = b && listStarts as bs

/-- Does `sub` occur as a contiguous sublist of `hay`? -/
def listHasSub : List Char → List Char → Bool
  | [], needle => needle.isEmpty
  | a :: as, needle => listStarts (a :: as) needle || listHasSub as needle

/-- Model of `String.prototype.includes` (substring containment). -/
def strContains (s sub : String) : Bool :=
  listHasSub s.data sub.data

/-- Single-character splitter (every separator the sources pass to
`String.prototype.split` with a string argument — `";"`, `"="`, `" "`,
`":"` — is a single character): keeps empty pieces, result never empty. -/
def splitCharList (sep : Char) : List Char → List (List Char)
  | [] => [[]]
  | c :: rest =>
    if c = sep then [] :: splitCharList sep rest
    else
      match splitCharList sep rest with
      | [] => [[c]]
      | seg :: segs => (c :: seg) :: segs

/-- Model of `String.prototype.split` with a one-character separator. -/
def jsSplit (s : String) (sep : Char) : List String :=
  (splitCharList sep s.data).map String.mk

/-- ECMAScript WhiteSpace / LineTerminator characters relevant here
(space, tab, LF, VT, FF, CR); model of the `\s` regex class and of the
characters removed by `String.prototype.trim`, restricted to ASCII. -/
def jsIsSpace (c : Char) : Bool :=
  c = ' ' || (9 ≤ c.toNat ∧ c.toNat ≤ 13)

/-- Model of `String.prototype.trim`. -/
def jsTrim (s : String) : String :=
  String.mk (((s.data.dropWhile jsIsSpace).reverse.dropWhile jsIsSpace).reverse)

/-- Numeric value of a hexadecimal digit, if `c` is one. -/
def hexVal (c : Char) : Option Nat :=
  if 48 ≤ c.toNat ∧ c.toNat ≤ 57 then some (c.toNat - 48)
  else if 65 ≤ c.toNat ∧ c.toNat ≤ 70 then some (c.toNat - 55)
  else if 97 ≤ c.toNat ∧ c.toNat ≤ 102 then some (c.toNat - 87)
  else none

/-- Model of `decodeURIComponent` on its percent-escape core: each valid
`%XX` escape is replaced by the character with code `XX`.  (Multi-byte
UTF-8 escape sequences and the `URIError` raised on a malformed escape are
outside the inputs the cookie values of the sources exercise; this
model decodes bytewise and leaves a malformed escape unchanged.) -/
def decodeURIComponentList : List Char → List Char
  | [] => []
  | '%' :: a :: b :: rest2 =>
    match hexVal a, hexVal b with
    | some x, some y => Char.ofNat (16 * x + y) :: decodeURIComponentList rest2
    | _, _ => '%' :: decodeURIComponentList (a :: b :: rest2)
  | c :: rest => c :: decodeURIComponentList rest

/-- Model of `decodeURIComponent`. -/
def decodeURIComponent (s : String) : String :=
  String.mk (decodeURIComponentList s.data)

/-- Model of `parseInt` on a decimal string: skip leading whitespace, read
an optional sign and then a maximal run of leading decimal digits; `none`
models the `NaN` result when no digit is found. -/
def jsParseInt (s : String) : Option Int :=
  let l := s.data.dropWhile jsIsSpace
  let (neg, l) : Bool × List Char :=
    match l with
    | '-' :: rest => (true, rest)
    | '+' :: rest => (false, rest)
    | _ => (false, l)
  let digits := l.takeWhile fun c => 48 ≤ c.toNat ∧ c.toNat ≤ 57
  if digits.isEmpty then none
  else
    let n : Nat := digits.foldl (fun acc c => 10 * acc + (c.toNat - 48)) 0
    some (if neg then -(n : Int) else (n : Int))

/-! ## Model of the platform `Date` -/

/-- A JavaScript `Date` value: either a valid point in time (epoch
milliseconds) or the `Invalid Date` sentinel. -/
inductive JsDate where
  | valid (ms : Int)
  | invalid
deriving DecidableEq, Repr

/-- Leap year predicate (Gregorian). -/
def isLeapYear (y : Nat) : Bool :=
  (y % 4 = 0 ∧ y % 100 ≠ 0) ∨ y % 400 = 0

/-- Days in the months strictly before month `m` (1-based) of a year. -/
def daysBeforeMonth (m : Nat) (leap : Bool) : Nat :=
  let lens : List Nat :=
    [31, if leap then 29 else 28, 31, 30, 31, 30, 31, 31, 30, 31, 30, 31]
  (lens.take (m - 1)).foldl (· + ·) 0

/-- Days from year 1 January 1 to year `y` January 1 (proleptic Gregorian). -/
def daysBeforeYear (y : Nat) : Nat :=
  365 * (y - 1) + (y - 1) / 4 - (y - 1) / 100 + (y - 1) / 400

/-- Epoch days (may be negative before 1970) of a civil date. -/
def epochDays (y m d : Nat) : Int :=
  (daysBeforeYear y : Int) - (daysBeforeYear 1970 : Int)
    + (daysBeforeMonth m (isLeapYear y) : Int) + (d : Int) - 1

/-- Parse a maximal all-digit token. -/
def parseDigits (s : String) : Option Nat :=
  if s.data ≠ [] ∧ s.data.all (fun c => 48 ≤ c.toNat ∧ c.toNat ≤ 57) then
    some (s.data.foldl (fun acc c => 10 * acc + (c.toNat - 48)) 0)
  else none

/-- Month number of an RFC-1123 month name. -/
def monthNum (s : String) : Option Nat :=
  (["Jan", "Feb", "Mar", "Apr", "May", "Jun",
    "Jul", "Aug", "Sep", "Oct", "Nov", "Dec"].indexOf? s).map (· + 1)

/-- RFC-1123 weekday names followed by the comma the format requires. -/
def dayNames : List String :=
  ["Mon,", "Tue,", "Wed,", "Thu,", "Fri,", "Sat,", "Sun,"]

/-- Model of the platform `new Date(string)` constructor, restricted to the
RFC-1123 HTTP date form `Day, DD Mon YYYY HH:MM:SS GMT` that `Expires`
cookie attributes use; every other shape yields the `Invalid Date`
sentinel (the engine-specific lenient formats are not exercised by the
inputs of the sources). -/
def jsDateOfString (s : String) : JsDate :=
  match jsSplit s ' ' with
  | [dayTok, ddTok, monTok, yyTok, timeTok, "GMT"] =>
    if dayNames.contains dayTok then
      match parseDigits ddTok, monthNum monTok, parseDigits yyTok,
            jsSplit timeTok ':' with
      | some dd, some mon, some yy, [hhTok, miTok, ssTok] =>
        match parseDigits hhTok, parseDigits miTok, parseDigits ssTok with
        | some hh, some mi, some ss =>
          if 1 ≤ dd ∧ dd ≤ 31 ∧ hh ≤ 23 ∧ mi ≤ 59 ∧ ss ≤ 59 then
            JsDate.valid
              ((((epochDays yy mon dd * 24 + (hh : Int)) * 60 + (mi : Int))
                  * 60 + (ss : Int)) * 1000)
          else JsDate.invalid
        | _, _, _ => JsDate.invalid
      | _, _, _, _ => JsDate.invalid
    else JsDate.invalid
  | _ => JsDate.invalid

/-! ## `parseSetCookies` (src/core/handlers/ResponseHandler.ts) -/

/-- Cookie record (src/types/handlers/ResponseHandler.types.ts); optional
fields are absent (`none`) unless an attribute sets them. -/
structure Cookie where
  name : String
  value : String
  domain : Option String := none
  path : Option String := none
  expires : Option JsDate := none
  secure : Option Bool := none
  httpOnly : Option Bool := none
  sameSite : Option String := none
deriving DecidableEq, Repr

/-- The reversed character list of `Expires=`, the pattern of the negative
lookbehind in the splitting regex. -/
def expiresRev : List Char := ("Expires=".data).reverse

/-- ECMAScript LineTerminator characters (`.` in the lookbehind does not
match them). -/
def isLineTerm (c : Char) : Bool :=
  c = '\n' || c = '\r'

/-- Core of `setCookieHeader.split(/(?<!Expires=.*),\s*/)`.

The negative lookbehind `(?<!Expires=.*)` holds at a comma exactly when no
occurrence of `Expires=` ends at or before the comma with only
non-line-terminator characters in between; so a comma is a separator iff
`Expires=` has not occurred earlier (since the last line terminator).  The
scan keeps the last eight characters seen (newest first) in `window`, a
flag `seen` recording whether `Expires=` has completed, the current
segment `cur` (reversed), and `skipping` marking that the `\s*` part of a
separator match is still consuming whitespace. -/
def splitCookieAux : List Char → List Char → Bool → List Char → Bool →
    List (List Char)
  | [], _, _, cur, _ => [cur.reverse]
  | c :: rest, window, seen, cur, skipping =>
    let win := (c :: window).take 8
    let seen2 := if isLineTerm c then false else seen || win = expiresRev
    if skipping && jsIsSpace c then
      splitCookieAux rest win seen2 cur true
    else if c = ',' && !seen then
      cur.reverse :: splitCookieAux rest win seen2 [] true
    else
      splitCookieAux rest win seen2 (c :: cur) false

/-- Model of `setCookieHeader.split(/(?<!Expires=.*),\s*/)`. -/
def splitSetCookie (s : String) : List String :=
  (splitCookieAux s.data [] false [] false).map String.mk

/-- One attribute step of the `attributes.forEach` loop: split the piece at
`=`, lowercase the key, and update the corresponding cookie field.  A
missing value (`val` = `none`) models the `undefined` second component. -/
def applyCookieAttr (now : Int) (cookie : Cookie) (attr : String) : Cookie :=
  let parts := jsSplit attr '='
  let key := parts.headD ""
  let val : Option String := parts[1]?
  let lowerKey := jsToLowerCase key
  if lowerKey = "domain" then { cookie with domain := val }
  else if lowerKey = "path" then { cookie with path := val }
  else if lowerKey = "expires" then
    -- `new Date(val)`; `new Date(undefined)` is Invalid Date
    { cookie with expires := some (match val with
        | some v => jsDateOfString v
        | none => JsDate.invalid) }
  else if lowerKey = "max-age" then
    -- `new Date(Date.now() + parseInt(val) * 1000)`; NaN gives Invalid Date
    { cookie with expires := some (match val.bind jsParseInt with
        | some n => JsDate.valid (now + n * 1000)
        | none => JsDate.invalid) }
  else if lowerKey = "secure" then { cookie with secure := some true }
  else if lowerKey = "httponly" then { cookie with httpOnly := some true }
  else if lowerKey = "samesite" then { cookie with sameSite := val }
  else cookie

/-- Parse one comma-split cookie segment: split on `;`, trim each piece,
take the first piece as `name=value` (split at `=`, empty value defaulted
via `value || ""`), percent-decode name and value, then fold the remaining
attribute pieces. -/
def parseCookieStr (now : Int) (cookieStr : String) : Cookie :=
  let pieces := (jsSplit cookieStr ';').map jsTrim
  let nameValue := pieces.headD ""
  let attributes := pieces.tail
  let nv := jsSplit nameValue '='
  let name := nv.headD ""
  let value : Option String := nv[1]?
  let cookie : Cookie :=
    { name := decodeURIComponent name
      value := decodeURIComponent (value.getD "") }
  attributes.foldl (applyCookieAttr now) cookie

/-- Model of `parseSetCookies(headers)` applied to the value of the
`set-cookie` header (`none` models an absent header; the guard
`if (!setCookieHeader)` in the source also returns `[]` for the falsy
empty string).  `now` is the value of `Date.now()` during the call. -/
def parseSetCookies (now : Int) (setCookieHeader : Option String) :
    List Cookie :=
  match setCookieHeader with
  | none => []
  | some s =>
    if s = "" then []
    else (splitSetCookie s).map (parseCookieStr now)

/-! ## JSON values, response bodies, fetch `Headers` -/

/-- A structured JSON value (result of `response.json()`). -/
inductive JsValue where
  | null
  | boolVal (b : Bool)
  | numVal (n : Int)
  | strVal (s : String)
  | arrVal (elems : List JsValue)
  | objVal (fields : List (String × JsValue))

/-- A decoded response body: one constructor per decoding tier of the
Response Normalizer (JSON, text, multipart form data, binary blob). -/
inductive BodyVal where
  | jsonVal (v : JsValue)
  | textVal (s : String)
  | formVal (fields : List (String × String))
  | blobVal (bytes : List Nat)

/-- Join a list of strings with a separator (structural version of
`String.intercalate`, so that proofs can reduce it). -/
def joinSep (sep : String) (xs : List String) : String :=
  String.mk (List.intercalate sep.data (xs.map String.data))

/-- A fetch-API `Headers` object.  Per the fetch specification the header
list lives in an internal slot; `entries` models that slot, with names
stored lowercased (the constructor and `set`/`append` normalize names). -/
structure JsHeaders where
  entries : List (String × String)

/-- Model of `Headers.prototype.get`: case-insensitive lookup returning
the values of all matching entries joined with `", "`, or `null` when no
entry matches. -/
def JsHeaders.get (h : JsHeaders) (name : String) : Option String :=
  let target := jsToLowerCase name
  match (h.entries.filter fun p => jsToLowerCase p.1 = target).map Prod.snd with
  | [] => none
  | v :: vs => some (joinSep ", " (v :: vs))

/-- Model of `Object.entries` applied to a `Headers` instance.  Per
ECMAScript, `Object.entries` returns the own enumerable string-keyed
properties of its argument; a spec-compliant fetch `Headers` object keeps
its header list in an internal slot and exposes no own enumerable
properties, so the result is always the empty list — the entries of the
header list are NOT returned. -/
def jsObjectEntriesOfHeaders (_h : JsHeaders) : List (String × String) := []

/-- Model of setting a property on a plain JS object represented as an
insertion-ordered association list: an existing key keeps its position
and gets the new value, a new key is appended. -/
def objSet (obj : List (String × String)) (key val : String) :
    List (String × String) :=
  if (obj.map Prod.fst).contains key then
    obj.map fun p => if p.1 = key then (key, val) else p
  else obj ++ [(key, val)]

/-! ## `ResponseHandler` (src/core/handlers/ResponseHandler.ts) -/

/-- Raw response as delivered by the transport primitive (`fetch`).  The
four `...Body` fields model the outcome of the four body-reading
operations (`json()`, `text()`, `formData()`, `blob()`): `none` means
that reader rejects. -/
structure Response where
  status : Nat
  statusText : String
  headers : JsHeaders
  url : String
  type : String
  redirected : Bool
  jsonBody : Option JsValue
  textBody : Option String
  formBody : Option (List (String × String))
  blobBody : Option (List Nat)

/-- Model of `Response.ok` (fetch spec): status in the inclusive range
200–299. -/
def Response.ok (r : Response) : Bool :=
  200 ≤ r.status && r.status ≤ 299

/-- The `{...meta, body}` object carried by a thrown `HttpError`. -/
structure ErrData where
  url : String
  type : String
  redirected : Bool
  headers : List (String × String)
  cookies : List Cookie
  body : BodyVal

/-- `HttpError` (src/error/HttpError.ts): status code, message and
optional response data. -/
structure HttpError where
  status : Nat
  message : String
  data : Option ErrData := none

/-- `ResponseMeta` (src/types/handlers/ResponseHandler.types.ts). -/
structure ResponseMeta where
  url : String
  type : String
  redirected : Bool
  headers : List (String × String)
  cookies : List Cookie

/-- `IAPIResponse` — the response envelope. -/
structure IAPIResponse where
  body : BodyVal
  headers : List (String × String)
  cookies : List Cookie
  meta : ResponseMeta

/-- The raw value passed to `ApiErrorHandler.handle`: an `HttpError`
instance, a generic `Error` (identified by its message), or a thrown
non-`Error` value (modelled by its string description). -/
inductive RawError where
  | httpErr (e : HttpError)
  | genericErr (message : String)
  | nonError (description : String)

/-- `ApiError` (src/types/error/ApiError.types.ts). -/
structure ApiError where
  status : Nat
  message : String
  details : Option ErrData := none
  isNetworkError : Bool
  originalError : RawError

/-- A thrown JavaScript value anywhere in the pipeline: an `HttpError`,
an `InvalidUrlError`, a plain `Error` (by message), or a thrown
non-`Error` object (the `ApiError` records `errorHandler.handle` returns,
which `constructApi` throws). -/
inductive JsErr where
  | httpErr (e : HttpError)
  | invalidUrlErr (message : String)
  | genericErr (message : String)
  | apiErrThrown (e : ApiError)

/-- The `message` property of a thrown value. -/
def jsErrMessage : JsErr → String
  | .httpErr e => e.message
  | .invalidUrlErr m => m
  | .genericErr m => m
  | .apiErrThrown e => e.message

/-- Body decoding policy of `ResponseHandler`: pick the reader by
content-type substring match (JSON, then `text/`, then multipart, else
blob); if the selected reader rejects, the `catch` block falls back to
`response.text()`.  `none` means the fallback rejected as well. -/
def decodeBody (r : Response) (contentType : String) : Option BodyVal :=
  let primary : Option BodyVal :=
    if strContains contentType "application/json" then
      r.jsonBody.map BodyVal.jsonVal
    else if strContains contentType "text/" then
      r.textBody.map BodyVal.textVal
    else if strContains contentType "multipart/form-data" then
      r.formBody.map BodyVal.formVal
    else
      r.blobBody.map BodyVal.blobVal
  match primary with
  | some b => some b
  | none => r.textBody.map BodyVal.textVal

/-- The headers normalization step of `ResponseHandler`:
`Array.from(Object.entries(response.headers)).reduce(...)`, lowercasing
each key into an accumulated object (last write wins).  Because
`Object.entries` on a `Headers` instance yields nothing (see
`jsObjectEntriesOfHeaders`), the fold always starts and ends empty. -/
def normalizeHeadersEnvelope (h : JsHeaders) : List (String × String) :=
  (jsObjectEntriesOfHeaders h).foldl
    (fun acc kv => objSet acc (jsToLowerCase kv.1) kv.2) []

/-- Model of `ResponseHandler(response)`.  `now` is `Date.now()` during
cookie parsing.  A failure of the final text fallback surfaces as the
(untyped) platform read error; a non-2xx status raises `HttpError` with
`{...meta, body}` as its data. -/
def ResponseHandler (now : Int) (r : Response) : Except JsErr IAPIResponse :=
  let contentType := (r.headers.get "content-type").getD ""
  match decodeBody r contentType with
  | none => .error (.genericErr "body stream could not be read")
  | some body =>
    let headers := normalizeHeadersEnvelope r.headers
    let cookies := parseSetCookies now (r.headers.get "set-cookie")
    let meta : ResponseMeta :=
      ⟨r.url, r.type, r.redirected, headers, cookies⟩
    if !r.ok then
      .error (.httpErr ⟨r.status, r.statusText,
        some ⟨r.url, r.type, r.redirected, headers, cookies, body⟩⟩)
    else
      .ok ⟨body, headers, cookies, meta⟩

/-! ## `ApiErrorHandler` (src/error/ApiError.ts) -/

/-- The `statusMessages` table of the default `ErrorHandlerConfig`. -/
def defaultStatusMessages : List (Nat × String) :=
  [(400, "Invalid request"),
   (401, "Unauthorized - Please login"),
   (403, "Forbidden - Insufficient permissions"),
   (404, "Resource not found"),
   (500, "Internal server error")]

/-- `getStatusMessage`: `this.config.statusMessages[status] || generic`.
An entry that is the empty string is falsy in JS and falls through to the
generic message, hence the inner guard. -/
def getStatusMessage (table : List (Nat × String)) (status : Nat) : String :=
  match table.lookup status with
  | some m => if m = "" then "HTTP Error " ++ toString status else m
  | none => "HTTP Error " ++ toString status

/-- `isNetworkError`: message pattern match against the two known
network-failure phrasings. -/
def isNetworkErrorMessage (msg : String) : Bool :=
  strContains msg "Network Error" || strContains msg "Failed to fetch"

/-- `ApiErrorHandler.normalizeError` with the given status-message
table. -/
def normalizeError (table : List (Nat × String)) (e : RawError) : ApiError :=
  match e with
  | .httpErr he =>
    { status := he.status
      message := getStatusMessage table he.status
      details := he.data
      isNetworkError := false
      originalError := e }
  | .genericErr msg =>
    { status := 0
      message :=
        if isNetworkErrorMessage msg then
          "Network error - Please check your connection"
        else "Unexpected application error"
      isNetworkError := isNetworkErrorMessage msg
      originalError := e }
  | .nonError _ =>
    { status := 500
      message := "Unknown error occurred"
      isNetworkError := false
      originalError := e }

/-- `ApiErrorHandler.handle`: normalize, then log and run the
status-keyed special-case hooks.  Logging and the hooks are console-only
observers with no effect on the returned value, so the returned
`ApiError` is exactly the normalized one. -/
def handleError (table : List (Nat × String)) (e : RawError) : ApiError :=
  normalizeError table e

/-! ## Model of the platform WHATWG `URL` -/

/-- A parsed absolute URL (scheme, host — including any port — path,
query, fragment). -/
structure URL where
  scheme : String
  host : String
  path : String
  query : String
  fragment : String
deriving DecidableEq, Repr

/-- Characters allowed in a URL scheme after the first (ASCII
alphanumeric and `+`, `-`, `.`). -/
def schemeChar (c : Char) : Bool :=
  (65 ≤ c.toNat ∧ c.toNat ≤ 90) || (97 ≤ c.toNat ∧ c.toNat ≤ 122) ||
  (48 ≤ c.toNat ∧ c.toNat ≤ 57) || c = '+' || c = '-' || c = '.'

/-- Is `c` an ASCII letter? -/
def isAsciiAlpha (c : Char) : Bool :=
  (65 ≤ c.toNat ∧ c.toNat ≤ 90) || (97 ≤ c.toNat ∧ c.toNat ≤ 122)

/-- Split a path-query-fragment character sequence at the first `?` and
`#`. -/
def resolvePQF (l : List Char) : String × String × String :=
  let p := l.takeWhile fun c => c ≠ '?' ∧ c ≠ '#'
  let rest := l.drop p.length
  match rest with
  | '?' :: r2 =>
    let q := r2.takeWhile fun c => c ≠ '#'
    let rest2 := r2.drop q.length
    match rest2 with
    | '#' :: f => (String.mk p, String.mk q, String.mk f)
    | _ => (String.mk p, String.mk q, "")
  | '#' :: f => (String.mk p, "", String.mk f)
  | _ => (String.mk p, "", "")

/-- Modelled from the platform: parse a standalone absolute URL of the
form `scheme://host[/path][?query][#fragment]`.  Restrictions of the
model (documented, not exercised by the claims): dot-segment and
percent-encoding normalization of the path are omitted, the port is kept
inside `host`, and non-authority URL forms (`mailto:` etc.) are
rejected.  Scheme and host are lowercased as WHATWG prescribes; an empty
path serializes as `/`. -/
def parseAbsolute (s : String) : Option URL :=
  let l := s.data
  let sch := l.takeWhile schemeChar
  let rest := l.drop sch.length
  match sch, rest with
  | c :: cs, ':' :: '/' :: '/' :: rest2 =>
    if isAsciiAlpha c then
      let hostport := rest2.takeWhile fun x => x ≠ '/' ∧ x ≠ '?' ∧ x ≠ '#'
      if hostport.isEmpty then none
      else
        let after := rest2.drop hostport.length
        let (p, q, f) := resolvePQF after
        some ⟨jsToLowerCase (String.mk (c :: cs)),
              jsToLowerCase (String.mk hostport),
              (if p = "" then "/" else p), q, f⟩
    else none
  | _, _ => none

/-- Modelled from the platform: `new URL(input, base?)`, restricted to
the absolute form above, path-absolute inputs (starting `/`) resolved
against an absolute base, and plain relative inputs merged onto the base
path directory (RFC 3986 merge without dot-segment handling;
protocol-relative `//host` inputs are outside the model).  `none` models
the thrown `TypeError`. -/
def jsNewURL (input : String) (base : Option String) : Option URL :=
  match parseAbsolute input with
  | some u => some u
  | none =>
    match base.bind parseAbsolute with
    | none => none
    | some ub =>
      match input.data with
      | '/' :: _ =>
        let (p, q, f) := resolvePQF input.data
        some { ub with path := p, query := q, fragment := f }
      | l =>
        let (p, q, f) := resolvePQF l
        let dir := ((ub.path.data.reverse.dropWhile fun c => c ≠ '/')).reverse
        some { ub with path := String.mk dir ++ p, query := q, fragment := f }

/-- Modelled from the platform: the engine-specific message of the
`TypeError` thrown by the `URL` constructor. -/
def jsURLTypeErrorMessage : String := "Invalid URL"

/-! ## `BasicUrlParser` and `UrlHandler` (URL Resolver) -/

/-- Model of `String.prototype.startsWith`. -/
def jsStartsWith (s pre : String) : Bool :=
  listStarts s.data pre.data

/-- `BasicUrlParser.isRelativeUrl`: leading-slash heuristic. -/
def isRelativeUrl (url : String) : Bool :=
  jsStartsWith url "/"

/-- `BasicUrlParser.parse`.  Both failure paths produce an
`InvalidUrlError`; note that the explicit relative-without-base throw
happens inside the `try`, so its own `catch` wraps that already-typed
error once more, nesting its message. -/
def basicUrlParserParse (url : String) (base : Option String) :
    Except JsErr URL :=
  if isRelativeUrl url ∧ base = none then
    .error (.invalidUrlErr ("Invalid URL: " ++ url ++ ". " ++
      ("Invalid URL: " ++ url ++
        ". Please provide the complete url else provide base url.")))
  else
    match jsNewURL url base with
    | some u => .ok u
    | none =>
      .error (.invalidUrlErr
        ("Invalid URL: " ++ url ++ ". " ++ jsURLTypeErrorMessage))

/-- A query-parameter value
(`QueryParams = Record<string, string | string[] | number | boolean>`). -/
inductive QueryVal where
  | strVal (s : String)
  | numVal (n : Int)
  | boolVal (b : Bool)
  | arrVal (xs : List String)

/-- JS `value.toString()` on a query-parameter value; an array
stringifies as its elements joined with commas. -/
def queryValToString : QueryVal → String
  | .strVal s => s
  | .numVal n => toString n
  | .boolVal b => if b then "true" else "false"
  | .arrVal xs => joinSep "," xs

/-- UTF-8 bytes of a character (for the form-urlencoded serializer). -/
def utf8Bytes (c : Char) : List Nat :=
  let n := c.toNat
  if n < 128 then [n]
  else if n < 2048 then [192 + n / 64, 128 + n % 64]
  else if n < 65536 then
    [224 + n / 4096, 128 + (n / 64) % 64, 128 + n % 64]
  else
    [240 + n / 262144, 128 + (n / 4096) % 64, 128 + (n / 64) % 64,
     128 + n % 64]

/-- Bytes the `application/x-www-form-urlencoded` serializer emits
verbatim: ASCII alphanumerics and `*`, `-`, `.`, `_`. -/
def formSafeByte (b : Nat) : Bool :=
  (48 ≤ b ∧ b ≤ 57) || (65 ≤ b ∧ b ≤ 90) || (97 ≤ b ∧ b ≤ 122) ||
  b = 42 || b = 45 || b = 46 || b = 95

/-- Uppercase hexadecimal digit. -/
def hexDigitUpper (n : Nat) : Char :=
  Char.ofNat (if n < 10 then 48 + n else 55 + n)

/-- Percent-encode a byte sequence per the form-urlencoded serializer
(space becomes `+`, safe bytes stay, everything else becomes `%XX`). -/
def formEncodeBytes : List Nat → List Char
  | [] => []
  | b :: rest =>
    if b = 32 then '+' :: formEncodeBytes rest
    else if formSafeByte b then Char.ofNat b :: formEncodeBytes rest
    else '%' :: hexDigitUpper (b / 16) :: hexDigitUpper (b % 16) ::
      formEncodeBytes rest

/-- Form-urlencode one string (UTF-8 bytes, then byte-wise encoding). -/
def formEncode (s : String) : String :=
  String.mk (formEncodeBytes ((s.data.map utf8Bytes).flatten))

/-- Model of `URLSearchParams.prototype.toString`: serialize the entry
list in insertion order as `k=v` joined with `&`, form-urlencoding keys
and values. -/
def urlSearchParamsToString (pairs : List (String × String)) : String :=
  joinSep "&" (pairs.map fun p => formEncode p.1 ++ "=" ++ formEncode p.2)

/-- `UrlHandler.buildQueryString`: one `searchParams.append(key,
value.toString())` per key of the mapping — note a sequence value is
stringified once (comma-joined), not appended element by element. -/
def buildQueryString (params : List (String × QueryVal)) : String :=
  urlSearchParamsToString (params.map fun p => (p.1, queryValToString p.2))

/-- `UrlHandler.parse`, which is also the `urlParser` instance used by
`constructUrl` (core/urlParser/index.ts is not under src/; per the spec
the default resolver is a `UrlHandler` with the `BasicUrlParser` strategy
and no encryptor).  A parser failure is caught and wrapped in a new
`InvalidUrlError` with a `Failed to create URL: ` prefix; query
parameters, when present, replace the query of the parsed URL. -/
def urlHandlerParse (url : String) (base : Option String)
    (queryParams : Option (List (String × QueryVal))) : Except JsErr URL :=
  match basicUrlParserParse url base with
  | .error e =>
    .error (.invalidUrlErr ("Failed to create URL: " ++ jsErrMessage e))
  | .ok u =>
    match queryParams with
    | some ps => .ok { u with query := buildQueryString ps }
    | none => .ok u

/-! ## `HeaderFactory` (Header Assembler) -/

/-- Fetch `Headers.prototype.set` on the modelled header list: the name
is normalized to lowercase; an existing entry keeps its position and gets
the new value, otherwise the entry is appended. -/
def headerSet (entries : List (String × String)) (name value : String) :
    List (String × String) :=
  objSet entries (jsToLowerCase name) value

/-- Fetch `Headers.prototype.append`: lowercase the name and combine with
an existing value using `", "`. -/
def headerAppend (entries : List (String × String)) (name value : String) :
    List (String × String) :=
  let key := jsToLowerCase name
  match entries.lookup key with
  | some old =>
    entries.map fun p => if p.1 = key then (key, old ++ ", " ++ value) else p
  | none => entries ++ [(key, value)]

/-- `new Headers(config)` from a plain record: append every entry. -/
def headersOfConfig (config : List (String × String)) :
    List (String × String) :=
  config.foldl (fun acc p => headerAppend acc p.1 p.2) []

/-- `new Headers(headersInstance)`: the constructor fills a fresh header
list from the entries of the given instance.  With the unique stored
names the modelled list maintains this is an entrywise copy — and, being
a copy, later writes to the clone never reach the source object. -/
def headersCopy (entries : List (String × String)) :
    List (String × String) :=
  entries

/-- A character matched by the header-name validation regex
`/^[a-zA-Z0-9!#$%&TICK*+-.^_BACKTICK|~]+$/` of `isValidHeaderNames`,
where TICK is U+0027 and BACKTICK is U+0060.  The unescaped `+-.` in the
class is the range U+002B–U+002E, which also admits the comma. -/
def headerTokenChar (c : Char) : Bool :=
  (65 ≤ c.toNat ∧ c.toNat ≤ 90) || (97 ≤ c.toNat ∧ c.toNat ≤ 122) ||
  (48 ≤ c.toNat ∧ c.toNat ≤ 57) ||
  c = '!' || c = '#' || c = '$' || c = '%' || c = '&' || c.toNat = 39 ||
  c = '*' || (43 ≤ c.toNat ∧ c.toNat ≤ 46) ||
  c = '^' || c = '_' || c.toNat = 96 || c = '|' || c = '~'

/-- `HeaderFactory.isValidHeaderNames`: every header name matches the
token regex (which requires at least one character). -/
def isValidHeaderNames (entries : List (String × String)) : Bool :=
  entries.all fun p => p.1 ≠ "" && p.1.data.all headerTokenChar

/-- `HeaderFactory` state: the stored default header list and the
registered custom validators (a validator returns `some message` to model
a throw, `none` to pass). -/
structure HeaderFactory where
  defaultHeaders : List (String × String)
  customValidators : List (List (String × String) → Option String)

/-- `HeaderFactory.validateHeaders`: built-in name validation first, then
the custom validators in registration order, first failure wins. -/
def validateHeaders (f : HeaderFactory)
    (entries : List (String × String)) : Option String :=
  if ¬ isValidHeaderNames entries then some "Invalid header names detected"
  else
    f.customValidators.foldl
      (fun acc v => match acc with
        | some m => some m
        | none => v entries) none

/-- `HeaderFactory.create`: clone the defaults (`new
Headers(this.defaultHeaders)`), `set` each override into the clone,
validate, and return the merged list (or the thrown validation error). -/
def HeaderFactory.create (f : HeaderFactory)
    (headers : Option (List (String × String))) :
    Except String (List (String × String)) :=
  let merged := headersCopy f.defaultHeaders
  let merged := match headers with
    | some hs => hs.foldl (fun m p => headerSet m p.1 p.2) merged
    | none => merged
  match validateHeaders f merged with
  | some msg => .error msg
  | none => .ok merged

/-- `HeaderFactory.create` together with the factory state after the
call.  The method reads `this.defaultHeaders` only as the initializer of
the fresh `merged` Headers object and never writes a field of `this`, so
the state after the call is the state before — this is the direct
translation of the method body, which touches only `merged`. -/
def HeaderFactory.createSt (f : HeaderFactory)
    (headers : Option (List (String × String))) :
    Except String (List (String × String)) × HeaderFactory :=
  (f.create headers, f)

/-- The process-wide `headerFactory` (core/header/index.ts):
`new HeaderFactory()` — empty defaults, no custom validators. -/
def headerFactoryGlobal : HeaderFactory := ⟨[], []⟩

/-- `HeaderPresets.json()`. -/
def headerPresetsJson : List (String × String) :=
  [("Content-Type", "application/json"), ("Accept", "application/json")]

/-- Plain-object spread merge `{...a, ...b}` on insertion-ordered
records: keys of `a` first, entries of `b` overwrite in place or append
(exact, case-sensitive key match — these are plain objects, not
`Headers`). -/
def jsRecordMerge (a b : List (String × String)) :
    List (String × String) :=
  b.foldl (fun acc p => objSet acc p.1 p.2) a

/-! ## Request pipeline (RequestHandler, apiConstructor, JamClient) -/

/-- `HttpMethods` (src/types/clients/httpClient.types.ts). -/
inductive HttpMethods where
  | GET | POST | PUT | DELETE | PATCH
deriving DecidableEq, Repr

/-- Model of `request(endpoint, method, options)`
(src/core/handlers/RequestHandler.ts).  `fetchOutcome` is the transport
result: `.error msg` models `fetch` rejecting with a `TypeError` carrying
`msg` (never an `HttpError`), which the `catch` wraps as
`HttpError(0, "Network Error: " + msg)`.  On fetch success the source
executes `return ResponseHandler(response)` without `await`: the
rejection of a promise returned from inside `try` is not observed by the
local `catch` (ECMAScript resolves the returned promise after control has
left the `try` block), so every `ResponseHandler` failure — in
particular a typed `HttpError` — passes through unchanged. -/
def request (fetchOutcome : Except String Response) (now : Int) :
    Except JsErr IAPIResponse :=
  match fetchOutcome with
  | .error msg => .error (.httpErr ⟨0, "Network Error: " ++ msg, none⟩)
  | .ok resp => ResponseHandler now resp

/-- Model of `constructApi(url, payload, header, method)`
(src/core/apiConstructor/index.ts).  Modelled from the spec: the per-verb
module under core/httpMethods (not under src/) default-exports a thin
wrapper dispatching through the Request Orchestrator, embedded here as
`request fetchOutcome now`; the dynamic import is assumed to resolve.
With a method present the source executes `return apiFunction.default(url,
options)` without `await`, so rejections of the dispatched call bypass
the local `catch` and propagate unchanged.  With no method,
`errorHandler.handle("Please provide the HTTP Method")` builds an
`ApiError` (status 500, message `Unknown error occurred`); throwing that
plain object is caught by the same `catch`, which re-handles the
concatenation `"Error occurred in construct API method:: " + e` (the
object stringifies as `[object Object]`), producing again a thrown
status-500 `ApiError`. -/
def constructApi (fetchOutcome : Except String Response) (now : Int)
    (_url : URL) (_payload : Option String)
    (_header : Option (List (String × String)))
    (method : Option HttpMethods) : Except JsErr IAPIResponse :=
  match method with
  | some _ => request fetchOutcome now
  | none =>
    .error (.apiErrThrown (handleError defaultStatusMessages
      (.nonError ("Error occurred in construct API method:: " ++
        "[object Object]"))))

/-- Model of `constructHeaders(url, payload, headers, method)`: merge the
JSON preset with the per-call headers by object spread, build the header
set through the process-wide factory (a validation throw propagates —
there is no catch here), and delegate to `constructApi`. -/
def constructHeaders (fetchOutcome : Except String Response) (now : Int)
    (url : URL) (payload : Option String)
    (headers : Option (List (String × String)))
    (method : Option HttpMethods) : Except JsErr IAPIResponse :=
  match headerFactoryGlobal.create
      (some (jsRecordMerge headerPresetsJson (headers.getD []))) with
  | .error msg => .error (.genericErr msg)
  | .ok h => constructApi fetchOutcome now url payload (some h) method

/-- The `Url` argument record of `constructUrl`. -/
structure UrlArg where
  endpoint : String
  baseUrl : Option String := none
  queryParams : Option (List (String × QueryVal)) := none

/-- Model of `constructUrl(url, payload, headers, method)`: resolve the
endpoint through `urlParser.parse` (an `InvalidUrlError` propagates — no
catch) and delegate to `constructHeaders`. -/
def constructUrl (fetchOutcome : Except String Response) (now : Int)
    (u : UrlArg) (payload : Option String)
    (headers : Option (List (String × String)))
    (method : Option HttpMethods) : Except JsErr IAPIResponse :=
  match urlHandlerParse u.endpoint u.baseUrl u.queryParams with
  | .error e => .error e
  | .ok urlObj => constructHeaders fetchOutcome now urlObj payload headers method

/-- `JamClient` configuration state. -/
structure JamClientState where
  baseUrl : Option String := none
  accessToken : Option String := none
  headers : Option (List (String × String)) := none

/-- The argument tuple a `JamClient` verb method passes to
`constructUrl`. -/
structure DispatchCall where
  url : UrlArg
  payload : Option String := none
  headers : List (String × String) := []
  method : HttpMethods

/-- Model of `JamClient.delete(url, queryParams, payload)`
(src/core/clients/HttpClient.ts): it forwards
`{endpoint: url, baseUrl: this.baseUrl, queryParams}`, the payload, a
spread copy of `this.headers` (`{...undefined}` is the empty object) and
— as written in the source — the literal method string `"PUT"`. -/
def jamClientDeleteCall (st : JamClientState) (url : String)
    (queryParams : Option (List (String × QueryVal)))
    (payload : Option String) : DispatchCall :=
  { url := ⟨url, st.baseUrl, queryParams⟩
    payload := payload
    headers := st.headers.getD []
    method := HttpMethods.PUT }

/-! ## Example values used by witnesses -/

/-- A 404 response with JSON body `{"error": "not found"}` (the example of
the specification), with a readable text body for the fallback path. -/
def exampleResponse404 : Response :=
  { status := 404, statusText := "Not Found"
    headers := ⟨[("content-type", "application/json")]⟩
    url := "https://api.example.com/items", type := "basic"
    redirected := false
    jsonBody := some (.objVal [("error", .strVal "not found")])
    textBody := some "raw error text", formBody := none, blobBody := none }

/-- A plain 200 text response that does carry response headers. -/
def exampleTextResponse : Response :=
  { status := 200, statusText := "OK"
    headers := ⟨[("content-type", "text/plain"), ("x-request-id", "R1")]⟩
    url := "https://api.example.com/ping", type := "basic"
    redirected := false
    jsonBody := none, textBody := some "ok", formBody := none
    blobBody := none }

/-- A header factory with one stored default entry and no custom
validators. -/
def exampleHeaderFactory : HeaderFactory :=
  ⟨[("content-type", "application/json")], []⟩

/-! ## Helper lemmas -/

/-- Once the splitting scan has seen a completed `Expires=` (flag `seen` is
true) and no line terminator follows, no further comma ever splits: the
rest of the input becomes part of the current segment. -/
theorem splitCookieAux_of_seen (l : List Char) :
    ∀ (window cur : List Char), (∀ c ∈ l, isLineTerm c = false) →
    splitCookieAux l window true cur false = [cur.reverse ++ l] := by
  induction l with
  | nil => intro window cur _; simp [splitCookieAux]
  | cons c rest ih =>
    intro window cur h
    have hc : isLineTerm c = false := h c (List.mem_cons_self c rest)
    rw [splitCookieAux]
    simp [hc, ih _ (c :: cur) (fun x hx => h x (List.mem_cons_of_mem _ hx))]

/-- A string whose first character is `/` never parses as a standalone
absolute URL. -/
theorem parseAbsolute_of_slash (s : String) (h : isRelativeUrl s = true) :
    parseAbsolute s = none := by
  have hd : ∃ tl, s.data = '/' :: tl := by
    unfold isRelativeUrl jsStartsWith at h
    cases hd : s.data with
    | nil => rw [hd] at h; simp [listStarts] at h
    | cons a tl =>
      rw [hd] at h
      simp [listStarts] at h
      exact ⟨tl, by rw [h]⟩
  obtain ⟨tl, hd⟩ := hd
  have hs : schemeChar '/' = false := by decide
  unfold parseAbsolute
  rw [hd]
  simp [List.takeWhile_cons, hs]

/-! ## Claim theorems -/

/-- Claim C1, counterexample: the URL Resolver does re-wrap an
already-typed error.  For the relative path `/products` with no base,
`BasicUrlParser.parse` raises a typed `InvalidUrlError` and its own
`catch` wraps it in a second `InvalidUrlError` whose message nests the
original one; `UrlHandler.parse` then wraps that again with a
`Failed to create URL: ` prefix.  The caller therefore does not receive
the originally raised typed error with its message intact. -/
theorem c1_invalidUrl_rewrap_counterexample :
    basicUrlParserParse "/products" none =
      .error (.invalidUrlErr
        ("Invalid URL: /products. Invalid URL: /products. Please provide the complete url else provide base url.")) ∧
    urlHandlerParse "/products" none none =
      .error (.invalidUrlErr
        ("Failed to create URL: Invalid URL: /products. Invalid URL: /products. Please provide the complete url else provide base url.")) ∧
    ("Invalid URL: /products. Invalid URL: /products. Please provide the complete url else provide base url." : String)
      ≠ "Invalid URL: /products. Please provide the complete url else provide base url." :=
  ⟨rfl, rfl, by decide⟩

/-- Claim C1, amended: a typed `HttpError` raised by the Response
Normalizer propagates to the caller unchanged through the whole dispatch
chain — `request` returns the `ResponseHandler` promise without awaiting
it (so its own catch never sees the rejection), `constructApi` likewise
returns the dispatched promise, and `constructHeaders`/`constructUrl`
have no catch — whereas typed `InvalidUrlError`s from the URL Resolver
are re-wrapped (see the counterexample). -/
theorem c1_normalizer_httpError_propagates_unchanged (now : Int)
    (r : Response) (he : HttpError) (u : UrlArg) (payload : Option String)
    (headers : Option (List (String × String))) (m : HttpMethods)
    (uo : URL) (hs : List (String × String))
    (hu : urlHandlerParse u.endpoint u.baseUrl u.queryParams = .ok uo)
    (hh : headerFactoryGlobal.create
      (some (jsRecordMerge headerPresetsJson (headers.getD []))) = .ok hs)
    (hr : ResponseHandler now r = .error (.httpErr he)) :
    constructUrl (.ok r) now u payload headers (some m) =
      .error (.httpErr he) := by
  simp [constructUrl, hu, constructHeaders, hh, constructApi, request, hr]

/-- Witness for C1: the 404 example response propagates as exactly the
`HttpError` the Normalizer raised, status, message and details intact. -/
theorem c1_normalizer_httpError_propagates_unchanged_witness :
    constructUrl (.ok exampleResponse404) 0
      ⟨"https://api.example.com/items", none, none⟩ none none
      (some HttpMethods.GET) =
      .error (.httpErr ⟨404, "Not Found",
        some ⟨"https://api.example.com/items", "basic", false, [], [],
          BodyVal.jsonVal (.objVal [("error", .strVal "not found")])⟩⟩) :=
  c1_normalizer_httpError_propagates_unchanged 0 exampleResponse404 _
    ⟨"https://api.example.com/items", none, none⟩ none none HttpMethods.GET
    ⟨"https", "api.example.com", "/items", "", ""⟩
    [("content-type", "application/json"), ("accept", "application/json")]
    rfl rfl rfl

/-- Claim C2 (code bug): a sequence value produces a single comma-joined
query entry, not one entry per element — `buildQueryString` appends
`value.toString()` once per key, contradicting its own devnote
(`Handles array values through multiple key assignments`).  Scalars do
serialize with their natural textual form in insertion order. -/
theorem c2_sequence_value_single_entry :
    buildQueryString [("tags", QueryVal.arrVal ["a", "b"])] = "tags=a%2Cb" ∧
    (jsSplit (buildQueryString [("tags", QueryVal.arrVal ["a", "b"])])
      '&').length = 1 ∧
    buildQueryString
      [("page", QueryVal.numVal 2), ("q", QueryVal.strVal "x y"),
       ("safe", QueryVal.boolVal true)] = "page=2&q=x+y&safe=true" :=
  ⟨by decide, by decide, by decide⟩

/-- Claim C3: `ResponseHandler` raises `HttpError` exactly when the
status is outside 200–299 (both bounds success), carrying the status,
status text, and the decoded body inside its details; for an in-range
status it returns the envelope with the same decoded body. -/
theorem c3_status_range_normalization (now : Int) (r : Response)
    (b : BodyVal)
    (hb : decodeBody r ((r.headers.get "content-type").getD "") = some b) :
    (200 ≤ r.status ∧ r.status ≤ 299 →
      ResponseHandler now r = .ok ⟨b, normalizeHeadersEnvelope r.headers,
        parseSetCookies now (r.headers.get "set-cookie"),
        ⟨r.url, r.type, r.redirected, normalizeHeadersEnvelope r.headers,
         parseSetCookies now (r.headers.get "set-cookie")⟩⟩) ∧
    (¬ (200 ≤ r.status ∧ r.status ≤ 299) →
      ResponseHandler now r = .error (.httpErr ⟨r.status, r.statusText,
        some ⟨r.url, r.type, r.redirected, normalizeHeadersEnvelope r.headers,
          parseSetCookies now (r.headers.get "set-cookie"), b⟩⟩)) := by
  constructor <;> intro h
  · have hok : r.ok = true := by
      simp [Response.ok, h.1, h.2]
    simp [ResponseHandler, hb, hok]
  · have hok : r.ok = false := by
      simp [Response.ok]
      omega
    simp [ResponseHandler, hb, hok]

/-- Witness for C3: the status-404 response with JSON body
`error: not found` rejects with an `HttpError` of status 404 whose
details carry that JSON body. -/
theorem c3_status_range_normalization_witness :
    ResponseHandler 0 exampleResponse404 =
      .error (.httpErr ⟨404, "Not Found",
        some ⟨"https://api.example.com/items", "basic", false, [], [],
          BodyVal.jsonVal (.objVal [("error", .strVal "not found")])⟩⟩) :=
  (c3_status_range_normalization 0 exampleResponse404
    (BodyVal.jsonVal (.objVal [("error", .strVal "not found")])) rfl).2
    (by decide)

/-- Claim C4 (code bug): the envelope headers are always empty.
`ResponseHandler` builds them with `Object.entries(response.headers)`,
which returns the own enumerable properties of the `Headers` object —
none — rather than its header list; so even a response with headers
yields an empty headers mapping, contrary to the lowercased
name-to-value mapping the claim (and the devnote of the source)
describe. -/
theorem c4_envelope_headers_always_empty :
    (∀ h : JsHeaders, normalizeHeadersEnvelope h = []) ∧
    ResponseHandler 0 exampleTextResponse =
      .ok ⟨BodyVal.textVal "ok", [], [],
        ⟨"https://api.example.com/ping", "basic", false, [], []⟩⟩ :=
  ⟨fun _ => rfl, rfl⟩

/-- Claim C5: a relative path (leading `/`, or not parseable as a
standalone absolute URL) without a base fails with `InvalidUrl`; a
leading-slash path with a valid absolute base resolves to an absolute
URL whose path equals the given (already normalized) path.  The last
part is restricted to the modelled subset of the platform URL parser:
plain path characters (no `?`, `#`, `\`) and not protocol-relative. -/
theorem c5_relative_path_resolution :
    (∀ path : String, isRelativeUrl path = true →
      basicUrlParserParse path none =
        .error (.invalidUrlErr ("Invalid URL: " ++ path ++ ". " ++
          ("Invalid URL: " ++ path ++
            ". Please provide the complete url else provide base url.")))) ∧
    (∀ path : String, parseAbsolute path = none →
      ∃ m, urlHandlerParse path none none = .error (.invalidUrlErr m)) ∧
    (∀ (path base : String) (ub : URL),
      isRelativeUrl path = true →
      (∀ c ∈ path.data, c ≠ '?' ∧ c ≠ '#' ∧ c ≠ '\\') →
      parseAbsolute base = some ub →
      urlHandlerParse path (some base) none =
        .ok ⟨ub.scheme, ub.host, path, "", ""⟩) := by
  refine ⟨?_, ?_, ?_⟩
  · intro path h
    simp [basicUrlParserParse, h]
  · intro path hpa
    by_cases hrel : isRelativeUrl path = true
    · refine ⟨"Failed to create URL: " ++ ("Invalid URL: " ++ path ++ ". " ++
        ("Invalid URL: " ++ path ++
          ". Please provide the complete url else provide base url.")), ?_⟩
      simp [urlHandlerParse, basicUrlParserParse, hrel, jsErrMessage]
    · refine ⟨"Failed to create URL: " ++ ("Invalid URL: " ++ path ++ ". " ++
        jsURLTypeErrorMessage), ?_⟩
      simp only [urlHandlerParse, basicUrlParserParse, hrel]
      simp [jsNewURL, hpa, jsErrMessage, hrel]
  · intro path base ub hrel hplain hbase
    have hd : ∃ tl, path.data = '/' :: tl := by
      unfold isRelativeUrl jsStartsWith at hrel
      cases hd : path.data with
      | nil => rw [hd] at hrel; simp [listStarts] at hrel
      | cons a tl =>
        rw [hd] at hrel
        simp [listStarts] at hrel
        exact ⟨tl, by rw [hrel]⟩
    obtain ⟨tl, hd⟩ := hd
    have hpa := parseAbsolute_of_slash path hrel
    have htake : path.data.takeWhile
        (fun c => decide (c ≠ '?' ∧ c ≠ '#')) = path.data := by
      rw [List.takeWhile_eq_self_iff]
      intro a ha
      have := hplain a ha
      simp [this.1, this.2.1]
    simp only [urlHandlerParse, basicUrlParserParse]
    have hcond :
        ¬ (isRelativeUrl path = true ∧ (some base : Option String) = none) :=
      by simp
    rw [if_neg hcond]
    simp only [jsNewURL, hpa, Option.bind, hbase]
    rw [hd]
    simp only [resolvePQF]
    rw [← hd, htake]
    rw [List.drop_length]

/-- Witness for C5: `/products` alone fails, `products` alone fails, and
`/products` against `https://api.example.com` resolves with path
`/products`. -/
theorem c5_relative_path_resolution_witness :
    basicUrlParserParse "/products" none =
      .error (.invalidUrlErr
        ("Invalid URL: " ++ "/products" ++ ". " ++
          ("Invalid URL: " ++ "/products" ++
            ". Please provide the complete url else provide base url."))) ∧
    (∃ m, urlHandlerParse "products" none none =
      .error (.invalidUrlErr m)) ∧
    urlHandlerParse "/products" (some "https://api.example.com") none =
      .ok ⟨"https", "api.example.com", "/products", "", ""⟩ :=
  ⟨c5_relative_path_resolution.1 "/products" (by decide),
   c5_relative_path_resolution.2.1 "products" rfl,
   c5_relative_path_resolution.2.2 "/products" "https://api.example.com"
     ⟨"https", "api.example.com", "/", "", ""⟩ (by decide) (by decide) rfl⟩

/-- Claim C6, counterexample: a comma that lies after a completed
`Expires` attribute — outside the date value — still does not split,
because the negative lookbehind `(?<!Expires=.*)` fails at every comma
preceded anywhere by `Expires=`.  The claim predicts two cookies (`a`
and `b`) for this header; the code produces only cookie `a`. -/
theorem c6_comma_after_expires_counterexample :
    (parseSetCookies 0
      (some "a=1; Expires=Wed, 09 Jun 2021 10:18:14 GMT, b=2; Path=/")).map
      Cookie.name = ["a"] := by decide

/-- Claim C6, amended: a comma is a cookie separator only when no
`Expires=` occurs anywhere earlier; in particular the two example
families of the claim hold (the Path/HttpOnly/Max-Age header yields
exactly the two stated cookies, a single cookie with a comma inside its
`Expires` date stays one cookie), and — beyond the date value —
anything following a completed `Expires` attribute, commas included,
still parses as the same single cookie. -/
theorem c6_cookie_splitting (now : Int) (tail : List Char)
    (htail : ∀ c ∈ tail, isLineTerm c = false) :
    parseSetCookies now (some "a=1; Path=/; HttpOnly, b=2; Max-Age=60") =
      [{ name := "a", value := "1", path := some "/",
         httpOnly := some true },
       { name := "b", value := "2",
         expires := some (JsDate.valid (now + 60 * 1000)) }] ∧
    (parseSetCookies now
      (some "b=2; Expires=Wed, 09 Jun 2021 10:18:14 GMT")).length = 1 ∧
    (parseSetCookies now (some (String.mk
      ("a=1; Expires=Wed, 09 Jun 2021 10:18:14 GMT".data ++ tail)))).length
      = 1 := by
  refine ⟨rfl, rfl, ?_⟩
  have key := splitCookieAux_of_seen tail
    (("a=1; Expires=Wed, 09 Jun 2021 10:18:14 GMT".data).reverse.take 8)
    (("a=1; Expires=Wed, 09 Jun 2021 10:18:14 GMT".data).reverse) htail
  have eq1 : splitCookieAux
      ("a=1; Expires=Wed, 09 Jun 2021 10:18:14 GMT".data ++ tail)
      [] false [] false
      = splitCookieAux tail
        (("a=1; Expires=Wed, 09 Jun 2021 10:18:14 GMT".data).reverse.take 8)
        true
        (("a=1; Expires=Wed, 09 Jun 2021 10:18:14 GMT".data).reverse)
        false := rfl
  show ((splitSetCookie (String.mk
      ("a=1; Expires=Wed, 09 Jun 2021 10:18:14 GMT".data ++ tail))).map
      (parseCookieStr now)).length = 1
  rw [List.length_map]
  show ((splitCookieAux
      ("a=1; Expires=Wed, 09 Jun 2021 10:18:14 GMT".data ++ tail)
      [] false [] false).map String.mk).length = 1
  rw [eq1, key]
  simp

/-- Witness for C6: with the tail `, b=2; Path=/` after the completed
`Expires` attribute the whole header still parses as one cookie. -/
theorem c6_cookie_splitting_witness :
    (parseSetCookies 0 (some (String.mk
      ("a=1; Expires=Wed, 09 Jun 2021 10:18:14 GMT".data ++
        (", b=2; Path=/".data))))).length = 1 :=
  (c6_cookie_splitting 0 (", b=2; Path=/".data) (by decide)).2.2

/-- Claim C7, counterexample: with `Max-Age` first and `Expires` second
the parsed expiry is the `Expires` date (epoch 1623233894000 ms), not
`now + 60 × 1000` (60000 for `now = 0`): Max-Age does not take
precedence in that attribute order. -/
theorem c7_max_age_not_precedent_counterexample :
    parseSetCookies 0
      (some "b=2; Max-Age=60; Expires=Wed, 09 Jun 2021 10:18:14 GMT") =
      [{ name := "b", value := "2",
         expires := some (JsDate.valid 1623233894000) }] ∧
    JsDate.valid 1623233894000 ≠ JsDate.valid (0 + 60 * 1000) :=
  ⟨rfl, by decide⟩

/-- Claim C7, amended: the attributes are processed in encounter order
and each `expires`/`max-age` assignment overwrites unconditionally, so
the later of the two wins: with `Expires` before `Max-Age` the expiry is
`now + seconds × 1000`; with `Max-Age` before `Expires` it is the
`Expires` date. -/
theorem c7_expiry_last_attribute_wins (now : Int) :
    parseSetCookies now
      (some "b=2; Expires=Wed, 09 Jun 2021 10:18:14 GMT; Max-Age=60") =
      [{ name := "b", value := "2",
         expires := some (JsDate.valid (now + 60 * 1000)) }] ∧
    parseSetCookies now
      (some "b=2; Max-Age=60; Expires=Wed, 09 Jun 2021 10:18:14 GMT") =
      [{ name := "b", value := "2",
         expires := some (JsDate.valid 1623233894000) }] :=
  ⟨rfl, rfl⟩

/-- Claim C8: the error classifier maps an `HttpError` to its own status
with `isNetworkError = false` and the default-table message (generic
`HTTP Error {status}` otherwise), a generic error with a known
network-failure phrase to status 0 with `isNetworkError = true`, any
other generic error to status 0 with `isNetworkError = false`, and a
thrown non-error value to status 500. -/
theorem c8_error_classifier (he : HttpError) (msg1 msg2 v : String)
    (h1 : isNetworkErrorMessage msg1 = true)
    (h2 : isNetworkErrorMessage msg2 = false) :
    (handleError defaultStatusMessages (.httpErr he)).status = he.status ∧
    (handleError defaultStatusMessages (.httpErr he)).isNetworkError
      = false ∧
    (handleError defaultStatusMessages (.httpErr he)).message =
      (if he.status = 400 then "Invalid request"
       else if he.status = 401 then "Unauthorized - Please login"
       else if he.status = 403 then "Forbidden - Insufficient permissions"
       else if he.status = 404 then "Resource not found"
       else if he.status = 500 then "Internal server error"
       else "HTTP Error " ++ toString he.status) ∧
    (handleError defaultStatusMessages (.genericErr msg1)).status = 0 ∧
    (handleError defaultStatusMessages (.genericErr msg1)).isNetworkError
      = true ∧
    (handleError defaultStatusMessages (.genericErr msg2)).status = 0 ∧
    (handleError defaultStatusMessages (.genericErr msg2)).isNetworkError
      = false ∧
    (handleError defaultStatusMessages (.nonError v)).status = 500 := by
  refine ⟨rfl, rfl, ?_, rfl, ?_, rfl, ?_, rfl⟩
  · have br : ∀ (k : Nat), he.status ≠ k → (he.status == k) = false :=
      fun k h => beq_eq_false_iff_ne.mpr h
    simp only [handleError, normalizeError, getStatusMessage,
      defaultStatusMessages, List.lookup]
    by_cases e4 : he.status = 400
    · simp [e4]
    rw [br 400 e4]
    by_cases e1 : he.status = 401
    · simp [e1]
    rw [br 401 e1]
    by_cases e3 : he.status = 403
    · simp [e3]
    rw [br 403 e3]
    by_cases e0 : he.status = 404
    · simp [e0]
    rw [br 404 e0]
    by_cases e5 : he.status = 500
    · simp [e5]
    rw [br 500 e5]
    simp [e4, e1, e3, e0, e5]
  · simp [handleError, normalizeError, h1]
  · simp [handleError, normalizeError, h2]

/-- Witness for C8: the `Failed to fetch` phrase classifies as a network
error and status 404 maps to the default `Resource not found` message. -/
theorem c8_error_classifier_witness :
    (handleError defaultStatusMessages
      (.genericErr "Failed to fetch")).isNetworkError = true ∧
    (handleError defaultStatusMessages
      (.httpErr ⟨404, "Not Found", none⟩)).message = "Resource not found" := by
  have h := c8_error_classifier ⟨404, "Not Found", none⟩ "Failed to fetch"
    "boom" "x" (by decide) (by decide)
  exact ⟨h.2.2.2.2.1, by simpa using h.2.2.1⟩

/-- Claim C9: header assembly is idempotent on the default layer and
never mutates it — `create()` leaves the factory state untouched (with
or without overrides), a later no-override `create()` returns the same
set as the first even after an intervening override call, and when the
defaults validate, `create()` returns exactly the stored default
name/value pairs (the clone step changes no pair). -/
theorem c9_header_create_idempotent_nonmutating (f : HeaderFactory)
    (ov : List (String × String))
    (hv : validateHeaders f f.defaultHeaders = none) :
    (f.createSt none).2 = f ∧
    (f.createSt (some ov)).2 = f ∧
    (((f.createSt (some ov)).2).createSt none).1 = (f.createSt none).1 ∧
    (f.createSt none).1 = .ok f.defaultHeaders := by
  refine ⟨rfl, rfl, rfl, ?_⟩
  simp [HeaderFactory.createSt, HeaderFactory.create, headersCopy, hv]

/-- Witness for C9: a concrete factory whose defaults validate. -/
theorem c9_header_create_idempotent_nonmutating_witness :
    (exampleHeaderFactory.createSt none).1 =
      .ok exampleHeaderFactory.defaultHeaders :=
  (c9_header_create_idempotent_nonmutating exampleHeaderFactory
    [("X-Trace", "1")] (by decide)).2.2.2

/-- Claim C10: `JamClient.delete` dispatches with HTTP method `PUT` — the
method literal it passes to `constructUrl` is `"PUT"`, never `DELETE`. -/
theorem c10_delete_dispatches_put (st : JamClientState) (url : String)
    (qp : Option (List (String × QueryVal))) (payload : Option String) :
    (jamClientDeleteCall st url qp payload).method = HttpMethods.PUT ∧
    HttpMethods.PUT ≠ HttpMethods.DELETE :=
  ⟨rfl, by decide⟩

end Jam
